import Mathlib

/-!
# Verification of `time_sheet.py` (meeting-tools)

A shallow embedding of the interval-extractor of `src/time_sheet.py`.

Modelling conventions:

* Points in time (`datetime` values produced by `dateutil.parser.parse`) are
  modelled as integers (minutes since an arbitrary epoch); only their order
  and differences matter to the program.
* `dateutil.parser.parse` itself is an external library.  It is modelled as a
  parameter `pdt : String → Option Int`: `none` models the `ValueError` the
  library raises on an unparseable string, `some t` a successful parse.
  Concrete instantiations for test witnesses are built with `tableParse`.
* The Python string operations the program uses — `line.split(" ")`,
  `str.strip()`, `str.startswith`, `" ".join` — are defined below over the
  character list of the string (`pySplitSpace`, `pyStrip`, `pyStartsWith`,
  `pyJoinSpace`), following Python's semantics: `split(" ")` cuts at every
  single space and keeps empty pieces, `strip()` removes leading and
  trailing ASCII whitespace.
* Python raises exceptions; the embedding returns `Except`.  Every `raise`
  site of the scanner raises `ValueError`; the inductive `ScanError` keeps
  the payload of each site and `ScanError.pyType` records the Python
  exception class each constructor is raised as.
* `enumerate` indices start at 0; error messages use `num + 1` (1-based).
-/

namespace TimeSheet

/-! ## Python string primitives -/

/-- The ASCII whitespace characters removed by Python's `str.strip()`. -/
def pyIsSpace (c : Char) : Bool :=
  c == ' ' || c == '\t' || c == '\n' || c == '\r' || c == '\x0b' || c == '\x0c'

/-- Python `s.split(" ")` on character lists: cut at every single space
character, keeping empty pieces (`"a  b".split(" ") == ["a", "", "b"]`,
`"".split(" ") == [""]`). -/
def splitSpaceChars : List Char → List (List Char)
  | [] => [[]]
  | c :: rest =>
    if c == ' ' then [] :: splitSpaceChars rest
    else
      match splitSpaceChars rest with
      | t :: ts => (c :: t) :: ts
      | [] => [[c]]

/-- Python `line.split(" ")`. -/
def pySplitSpace (s : String) : List String :=
  (splitSpaceChars s.data).map (fun cs => ⟨cs⟩)

/-- Python `str.strip()`: remove leading and trailing whitespace. -/
def pyStrip (s : String) : String :=
  ⟨((s.data.dropWhile pyIsSpace).reverse.dropWhile pyIsSpace).reverse⟩

/-- Python `s.startswith(p)`. -/
def pyStartsWith (s p : String) : Bool :=
  p.data.isPrefixOf s.data

/-- Python `" ".join(pieces)`. -/
def pyJoinSpace (pieces : List String) : String :=
  ⟨List.intercalate [' '] (pieces.map String.data)⟩

/-! ## Data model -/

/-- A parsed timestamp line: `{"time": time, "tags": tags}` in the source. -/
structure TSLine where
  time : Int
  tags : List String
  deriving Repr, DecidableEq

/-- The `Interval` class of `time_sheet.py`: `start`, `end` (here `endTime`,
since `end` is reserved in Lean) and the accumulated raw `lines`. -/
structure Interval where
  start : Int
  endTime : Int
  lines : List String
  deriving Repr, DecidableEq

/-- The four `raise` sites of the scanner, with the data each one puts in its
message.  `lineNum` fields are the 1-based `num + 1` from the source. -/
inductive ScanError where
  | unmatchedEnd (lineNum : Nat) (line : String)
  | nestedStart (lineNum : Nat) (line : String)
  | negativeDuration (interval : Interval)
  | unterminated
  deriving Repr, DecidableEq

/-- The Python exception class each scanner failure is raised as.  Each of
the four `raise` sites of `time_sheet.py` (lines 43, 77, 90, 101) constructs
a plain `ValueError`. -/
def ScanError.pyType : ScanError → String
  | .unmatchedEnd _ _ => "ValueError"
  | .nestedStart _ _ => "ValueError"
  | .negativeDuration _ => "ValueError"
  | .unterminated => "ValueError"

/-- Model of `Interval.validate` (time_sheet.py lines 38-43): raises
`ValueError` ("Negative duration for interval") when `end < start`.  The two
`assert` statements cannot fire on the scanner's call path (both fields are
set before the call), so they are not modelled as a separate failure. -/
def Interval.validate (i : Interval) : Except ScanError Unit :=
  if i.endTime < i.start then .error (.negativeDuration i) else .ok ()

/-- Model of `Interval.hours` (lines 32-33):
`(end - start).total_seconds() / 3600`; under the minutes-since-epoch
abstraction this is `(end - start) / 60`, computed exactly in `ℚ`. -/
def Interval.hours (i : Interval) : ℚ := ((i.endTime - i.start : Int) : ℚ) / 60

/-- Model of `Interval.day` (lines 35-36): `end.date()`; under the minutes
abstraction, the calendar day is the floor-division of the time by 1440
minutes. -/
def Interval.day (i : Interval) : Int := i.endTime / 1440

/-! ## The timestamp-line parser and the scanner -/

/-- Model of `_parse_timestamp_line` (lines 55-65), parameterised by the
external date parser `pdt`.  Returns `none` for Python's `return False`.
The source's `if not time` check is dead (a `datetime` is always truthy)
and is not modelled. -/
def _parse_timestamp_line (pdt : String → Option Int) (line : String) :
    Option TSLine :=
  if pyStartsWith line "# " then
    match pdt (pyJoinSpace (((pySplitSpace line).drop 1).take 2)) with
    | none => none
    | some time => some ⟨time, ((pySplitSpace line).drop 3).map pyStrip⟩
  else
    none

/-- The loop state of `_parse_intervals_from_journal`: the
`active_interval`, which before being sealed has only a start time and
accumulated lines. -/
structure OpenInterval where
  start : Int
  lines : List String
  deriving Repr, DecidableEq

/-- The scan loop of `_parse_intervals_from_journal` (lines 70-102):
`num` is the `enumerate` index of the first remaining line, `active` the
`active_interval`, `acc` the `intervals` list built so far. -/
def scanAux (pdt : String → Option Int) (start_tag end_tag : String) :
    List String → Nat → Option OpenInterval → List Interval →
    Except ScanError (List Interval)
  | [], _, active, acc =>
    match active with
    | some _ => .error .unterminated
    | none => .ok acc
  | line :: rest, num, active, acc =>
    match active with
    | none =>
      match _parse_timestamp_line pdt line with
      | some parsed =>
        if parsed.tags.contains end_tag then
          .error (.unmatchedEnd (num + 1) line)
        else if parsed.tags.contains start_tag then
          scanAux pdt start_tag end_tag rest (num + 1)
            (some ⟨parsed.time, [line]⟩) acc
        else
          scanAux pdt start_tag end_tag rest (num + 1) none acc
      | none => scanAux pdt start_tag end_tag rest (num + 1) none acc
    | some a =>
      match _parse_timestamp_line pdt line with
      | some parsed =>
        if parsed.tags.contains start_tag then
          .error (.nestedStart (num + 1) line)
        else if parsed.tags.contains end_tag then
          let sealed : Interval := ⟨a.start, parsed.time, a.lines ++ [line]⟩
          match sealed.validate with
          | .error e => .error e
          | .ok _ =>
            scanAux pdt start_tag end_tag rest (num + 1) none (acc ++ [sealed])
        else
          scanAux pdt start_tag end_tag rest (num + 1)
            (some ⟨a.start, a.lines ++ [line]⟩) acc
      | none =>
        scanAux pdt start_tag end_tag rest (num + 1)
          (some ⟨a.start, a.lines ++ [line]⟩) acc

/-- Model of `_parse_intervals_from_journal` (lines 68-102). -/
def _parse_intervals_from_journal (pdt : String → Option Int)
    (lines : List String) (start_tag end_tag : String) :
    Except ScanError (List Interval) :=
  scanAux pdt start_tag end_tag lines 0 none []

/-! ## The report phase of `main` -/

/-- The optional date filters of `main` (lines 132-135), in source order:
first the `start_date` filter (`i.day() >= args.start_date`), then the
`end_date` filter (`i.day() <= args.end_date`). -/
def filterIntervals (start_date end_date : Option Int)
    (intervals : List Interval) : List Interval :=
  let afterStart :=
    match start_date with
    | some d => intervals.filter (fun i => decide (d ≤ i.day))
    | none => intervals
  match end_date with
  | some d => afterStart.filter (fun i => decide (i.day ≤ d))
  | none => afterStart

/-- The data printed by `main`'s report (lines 138-146): the period bounds
`intervals[0].start` and `intervals[-1].end`, the summed hours, and the
interval list used for the per-interval summary lines. -/
structure Report where
  periodStart : Int
  periodEnd : Int
  totalHours : ℚ
  entries : List Interval
  deriving Repr, DecidableEq

/-- How `main` can fail after argument parsing: a `ValueError` propagating
out of the scan, or the `IndexError` raised by `intervals[0]` /
`intervals[-1]` on an empty list (line 139). -/
inductive MainError where
  | scanFailure (e : ScanError)
  | indexError
  deriving Repr, DecidableEq

/-- The scan-filter-report pipeline of `main` (lines 127-146): scan the
journal, apply the optional date filters, sum the hours, and build the
report from `intervals[0]` and `intervals[-1]` — which raise `IndexError`
when the filtered list is empty. -/
def mainReport (pdt : String → Option Int) (journal : List String)
    (start_tag end_tag : String) (start_date end_date : Option Int) :
    Except MainError Report :=
  match _parse_intervals_from_journal pdt journal start_tag end_tag with
  | .error e => .error (.scanFailure e)
  | .ok scanned =>
    let intervals := filterIntervals start_date end_date scanned
    let total_duration := (intervals.map Interval.hours).sum
    match intervals.head?, intervals.getLast? with
    | some first, some last =>
      .ok ⟨first.start, last.endTime, total_duration, intervals⟩
    | _, _ => .error .indexError

/-! ## Inert lines and well-formed journal blocks -/

/-- A line that the scanner treats as inert relative to the two tags: it is
not a timestamp line, or it is one whose tags contain neither `start_tag`
nor `end_tag`. -/
def neitherTag (pdt : String → Option Int) (start_tag end_tag : String)
    (l : String) : Bool :=
  match _parse_timestamp_line pdt l with
  | none => true
  | some p => !(p.tags.contains start_tag) && !(p.tags.contains end_tag)

/-- One well-formed `start...end` episode of a journal: inert lines, then a
start-tag line, then inert lines, then an end-tag line. -/
structure JournalBlock where
  pre : List String
  startLine : String
  mid : List String
  endLine : String
  deriving Repr, DecidableEq

/-- The raw journal lines of a block. -/
def JournalBlock.toLines (b : JournalBlock) : List String :=
  b.pre ++ b.startLine :: (b.mid ++ [b.endLine])

/-- Well-formedness of a block: the `pre` and `mid` lines are inert, the
start line parses and carries `start_tag` but not `end_tag`, the end line
parses and carries `end_tag` but not `start_tag`, and the end time is not
before the start time. -/
def blockWF (pdt : String → Option Int) (st et : String)
    (b : JournalBlock) : Bool :=
  b.pre.all (neitherTag pdt st et) &&
  b.mid.all (neitherTag pdt st et) &&
  (match _parse_timestamp_line pdt b.startLine,
         _parse_timestamp_line pdt b.endLine with
   | some ps, some pe =>
     ps.tags.contains st && !(ps.tags.contains et) &&
     (pe.tags.contains et && !(pe.tags.contains st)) &&
     decide (ps.time ≤ pe.time)
   | _, _ => false)

/-- The time parsed from the block's start line (0 if it does not parse,
which `blockWF` rules out). -/
def blockStartTime (pdt : String → Option Int) (b : JournalBlock) : Int :=
  match _parse_timestamp_line pdt b.startLine with
  | some p => p.time
  | none => 0

/-- The time parsed from the block's end line (0 if it does not parse,
which `blockWF` rules out). -/
def blockEndTime (pdt : String → Option Int) (b : JournalBlock) : Int :=
  match _parse_timestamp_line pdt b.endLine with
  | some p => p.time
  | none => 0

/-- The interval a well-formed block should produce: the parsed boundary
times and, in input order, the start line, every line between, and the end
line. -/
def blockInterval (pdt : String → Option Int) (b : JournalBlock) : Interval :=
  ⟨blockStartTime pdt b, blockEndTime pdt b,
   b.startLine :: (b.mid ++ [b.endLine])⟩

/-! ## Concrete test data -/

/-- A concrete stand-in for `dateutil.parser.parse` used in test witnesses:
parse succeeds exactly on the strings listed in the table. -/
def tableParse (table : List (String × Int)) (s : String) : Option Int :=
  (table.find? (fun p => p.1 == s)).map Prod.snd

/-- The table used by the concrete witnesses below (minutes since
2020-01-01 00:00). -/
def demoTable : List (String × Int) :=
  [("2020-01-01 09:00", 540), ("2020-01-01 17:00", 1020),
   ("2020-01-02 09:00", 1980), ("2020-01-02 10:00", 2040),
   ("2020-01-02 08:00", 1920), ("2020-01-01", 0)]

/-! ## Scan lemmas -/

/-- With no interval open, a run of inert lines is skipped: only the
`enumerate` index advances. -/
theorem scanAux_skip_closed (pdt : String → Option Int) (st et : String)
    (ls : List String) (h : ∀ l ∈ ls, neitherTag pdt st et l = true) :
    ∀ rest num acc, scanAux pdt st et (ls ++ rest) num none acc
      = scanAux pdt st et rest (num + ls.length) none acc := by
  induction ls with
  | nil => intro rest num acc; simp
  | cons l ls ih =>
    intro rest num acc
    have hl := h l (List.mem_cons_self _ _)
    have hls := fun x hx => h x (List.mem_cons_of_mem _ hx)
    have hn : num + 1 + ls.length = num + (l :: ls).length := by
      simp only [List.length_cons]; omega
    rw [List.cons_append]
    cases hpl : _parse_timestamp_line pdt l with
    | none =>
      simp only [scanAux, hpl]
      rw [ih hls, hn]
    | some p =>
      unfold neitherTag at hl
      rw [hpl] at hl
      simp only [Bool.and_eq_true, Bool.not_eq_true'] at hl
      simp only [scanAux, hpl, hl.1, hl.2]
      rw [ih hls, hn]
      simp

/-- With an interval open, a run of inert lines is appended to the open
interval's accumulated lines. -/
theorem scanAux_skip_open (pdt : String → Option Int) (st et : String)
    (ls : List String) (h : ∀ l ∈ ls, neitherTag pdt st et l = true) :
    ∀ rest num t0 pls acc,
      scanAux pdt st et (ls ++ rest) num (some ⟨t0, pls⟩) acc
      = scanAux pdt st et rest (num + ls.length) (some ⟨t0, pls ++ ls⟩) acc := by
  induction ls with
  | nil => intro rest num t0 pls acc; simp
  | cons l ls ih =>
    intro rest num t0 pls acc
    have hl := h l (List.mem_cons_self _ _)
    have hls := fun x hx => h x (List.mem_cons_of_mem _ hx)
    have hn : num + 1 + ls.length = num + (l :: ls).length := by
      simp only [List.length_cons]; omega
    have happ : (pls ++ [l]) ++ ls = pls ++ l :: ls := by
      simp [List.append_assoc]
    rw [List.cons_append]
    cases hpl : _parse_timestamp_line pdt l with
    | none =>
      simp only [scanAux, hpl]
      rw [ih hls, hn, happ]
    | some p =>
      unfold neitherTag at hl
      rw [hpl] at hl
      simp only [Bool.and_eq_true, Bool.not_eq_true'] at hl
      simp only [scanAux, hpl, hl.1, hl.2]
      rw [ih hls, hn, happ]
      simp

/-- A run of inert lines scanned from the closed state returns the
accumulator unchanged. -/
theorem scanAux_inert_run (pdt : String → Option Int) (st et : String)
    (ls : List String) (h : ∀ l ∈ ls, neitherTag pdt st et l = true)
    (num : Nat) (acc : List Interval) :
    scanAux pdt st et ls num none acc = .ok acc := by
  have h2 := scanAux_skip_closed pdt st et ls h [] num acc
  rw [List.append_nil] at h2
  rw [h2]
  simp [scanAux]

/-- Scanning one well-formed block from the closed state appends exactly its
interval to the accumulator and returns to the closed state. -/
theorem scanAux_block (pdt : String → Option Int) (st et : String)
    (b : JournalBlock) (hwf : blockWF pdt st et b = true) :
    ∀ rest num acc, scanAux pdt st et (b.toLines ++ rest) num none acc
      = scanAux pdt st et rest (num + b.toLines.length) none
          (acc ++ [blockInterval pdt b]) := by
  intro rest num acc
  unfold blockWF at hwf
  cases hps : _parse_timestamp_line pdt b.startLine with
  | none => rw [hps] at hwf; simp at hwf
  | some ps =>
    cases hpe : _parse_timestamp_line pdt b.endLine with
    | none => rw [hps, hpe] at hwf; simp at hwf
    | some pe =>
      rw [hps, hpe] at hwf
      simp only [Bool.and_eq_true, Bool.not_eq_true', List.all_eq_true,
        decide_eq_true_eq] at hwf
      obtain ⟨⟨hpre, hmid⟩, ⟨⟨hsst, hset⟩, het, hest⟩, hle⟩ := hwf
      unfold JournalBlock.toLines
      rw [List.append_assoc, scanAux_skip_closed pdt st et b.pre hpre]
      rw [List.cons_append]
      simp only [scanAux, hps, hsst, hset]
      simp only [Bool.false_eq_true, if_false, if_true]
      rw [List.append_assoc, List.cons_append]
      rw [scanAux_skip_open pdt st et b.mid hmid]
      rw [List.cons_append]
      simp only [scanAux, hpe, het, hest]
      simp only [Bool.false_eq_true, if_false, if_true, List.cons_append,
        List.nil_append]
      have hval : (⟨ps.time, pe.time, b.startLine :: (b.mid ++ [b.endLine])⟩ :
          Interval).validate = .ok () := by
        unfold Interval.validate
        simp only [if_neg (not_lt.mpr hle)]
      rw [hval]
      have hiv : (⟨ps.time, pe.time, b.startLine :: (b.mid ++ [b.endLine])⟩ :
          Interval) = blockInterval pdt b := by
        unfold blockInterval blockStartTime blockEndTime
        rw [hps, hpe]
      rw [hiv]
      have hlen : num + b.pre.length + 1 + b.mid.length + 1
          = num + (b.pre ++ b.startLine :: (b.mid ++ [b.endLine])).length := by
        simp only [List.length_append, List.length_cons, List.length_nil]
        omega
      rw [hlen]

/-- Scanning a run of well-formed blocks from the closed state appends their
intervals, in block order, to the accumulator. -/
theorem scanAux_blocks (pdt : String → Option Int) (st et : String)
    (bs : List JournalBlock) (h : ∀ b ∈ bs, blockWF pdt st et b = true) :
    ∀ rest num acc,
      scanAux pdt st et ((bs.map JournalBlock.toLines).flatten ++ rest) num
        none acc
      = scanAux pdt st et rest
          (num + ((bs.map JournalBlock.toLines).flatten).length)
          none (acc ++ bs.map (blockInterval pdt)) := by
  induction bs with
  | nil => intro rest num acc; simp
  | cons b bs ih =>
    intro rest num acc
    have hb := h b (List.mem_cons_self _ _)
    have hbs := fun x hx => h x (List.mem_cons_of_mem _ hx)
    simp only [List.map_cons, List.flatten_cons, List.append_assoc]
    rw [scanAux_block pdt st et b hb]
    rw [ih hbs]
    have hlen : num + b.toLines.length
          + ((bs.map JournalBlock.toLines).flatten).length
        = num + (b.toLines ++ (bs.map JournalBlock.toLines).flatten).length := by
      simp only [List.length_append]; omega
    rw [hlen]
    simp

/-- Every interval list the scan loop returns satisfies `start ≤ end`,
provided the accumulator it starts from does. -/
theorem scanAux_nonneg (pdt : String → Option Int) (st et : String) :
    ∀ (ls : List String) (num : Nat) (active : Option OpenInterval)
      (acc ivs : List Interval),
      (∀ i ∈ acc, i.start ≤ i.endTime) →
      scanAux pdt st et ls num active acc = .ok ivs →
      ∀ i ∈ ivs, i.start ≤ i.endTime := by
  intro ls
  induction ls with
  | nil =>
    intro num active acc ivs hacc hscan
    cases active with
    | some a => simp [scanAux] at hscan
    | none =>
      simp only [scanAux, Except.ok.injEq] at hscan
      rw [← hscan]
      exact hacc
  | cons l rest ih =>
    intro num active acc ivs hacc hscan
    cases active with
    | none =>
      cases hpl : _parse_timestamp_line pdt l with
      | none =>
        simp only [scanAux, hpl] at hscan
        exact ih _ _ _ _ hacc hscan
      | some p =>
        simp only [scanAux, hpl] at hscan
        cases het : p.tags.contains et with
        | true => simp only [het] at hscan; simp at hscan
        | false =>
          cases hst : p.tags.contains st with
          | true =>
            simp only [het, hst] at hscan
            simp only [Bool.false_eq_true, if_false, if_true] at hscan
            exact ih _ _ _ _ hacc hscan
          | false =>
            simp only [het, hst] at hscan
            simp only [Bool.false_eq_true, if_false] at hscan
            exact ih _ _ _ _ hacc hscan
    | some a =>
      cases hpl : _parse_timestamp_line pdt l with
      | none =>
        simp only [scanAux, hpl] at hscan
        exact ih _ _ _ _ hacc hscan
      | some p =>
        simp only [scanAux, hpl] at hscan
        cases hst : p.tags.contains st with
        | true => simp only [hst] at hscan; simp at hscan
        | false =>
          cases het : p.tags.contains et with
          | false =>
            simp only [hst, het] at hscan
            simp only [Bool.false_eq_true, if_false] at hscan
            exact ih _ _ _ _ hacc hscan
          | true =>
            simp only [hst, het] at hscan
            simp only [Bool.false_eq_true, if_false, if_true] at hscan
            by_cases hlt : p.time < a.start
            · rw [Interval.validate] at hscan
              simp only [if_pos hlt] at hscan
              simp at hscan
            · rw [Interval.validate] at hscan
              simp only [if_neg hlt] at hscan
              refine ih _ _ _ _ ?_ hscan
              intro i hi
              rcases List.mem_append.mp hi with hi | hi
              · exact hacc i hi
              · rcases List.mem_singleton.mp hi with rfl
                exact le_of_not_lt hlt

/-- Joining two strings with a single space, as the source's
`" ".join(line.split(" ")[1:3])` does for a two-element slice. -/
theorem pyJoinSpace_pair (t1 t2 : String) :
    pyJoinSpace [t1, t2] = t1 ++ " " ++ t2 := by
  cases t1 with
  | mk d1 =>
    cases t2 with
    | mk d2 =>
      show (⟨List.intercalate [' '] [d1, d2]⟩ : String) = _
      simp only [List.intercalate, List.intersperse, List.flatten,
        List.append_nil]
      rw [show (⟨d1⟩ : String) ++ " " ++ ⟨d2⟩
            = (⟨(d1 ++ [' ']) ++ d2⟩ : String) from rfl]
      simp [List.append_assoc]

/-- Joining a one-element list is the element itself. -/
theorem pyJoinSpace_single (t : String) : pyJoinSpace [t] = t := by
  cases t with
  | mk d =>
    show (⟨List.intercalate [' '] [d]⟩ : String) = _
    simp [List.intercalate, List.intersperse]

/-! ## Claim theorems -/

/-- C1: for every journal made of well-formed `start...end` episodes
(inert lines, a start-tag line, lines with neither tag, an end-tag line)
followed by inert trailing lines, the scanner succeeds and emits exactly
one interval per episode, in the order the end-tag lines appear in the
input; each interval's `lines` field is its start line, every line between,
and its end line, in input order. -/
theorem C1_wellformed_pairs (pdt : String → Option Int) (st et : String)
    (bs : List JournalBlock) (trailing : List String)
    (hbs : ∀ b ∈ bs, blockWF pdt st et b = true)
    (htrail : ∀ l ∈ trailing, neitherTag pdt st et l = true) :
    _parse_intervals_from_journal pdt
      ((bs.map JournalBlock.toLines).flatten ++ trailing) st et
    = .ok (bs.map (blockInterval pdt)) := by
  unfold _parse_intervals_from_journal
  rw [scanAux_blocks pdt st et bs hbs]
  rw [scanAux_inert_run pdt st et trailing htrail]
  simp

/-- Witness for C1: a two-episode journal with junk before, between and
after yields exactly the two intervals, in end-line order, with both
boundary lines and the lines between. -/
theorem C1_witness :
    _parse_intervals_from_journal (tableParse demoTable)
      (([(⟨["junk"], "# 2020-01-01 09:00 ws", ["did stuff"],
            "# 2020-01-01 17:00 we"⟩ : JournalBlock),
         (⟨[], "# 2020-01-02 09:00 ws", [], "# 2020-01-02 10:00 we"⟩ :
            JournalBlock)].map JournalBlock.toLines).flatten ++ ["after"])
      "ws" "we"
    = .ok [⟨540, 1020,
            ["# 2020-01-01 09:00 ws", "did stuff", "# 2020-01-01 17:00 we"]⟩,
           ⟨1980, 2040,
            ["# 2020-01-02 09:00 ws", "# 2020-01-02 10:00 we"]⟩] := by
  have h := C1_wellformed_pairs (tableParse demoTable) "ws" "we"
    [⟨["junk"], "# 2020-01-01 09:00 ws", ["did stuff"], "# 2020-01-01 17:00 we"⟩,
     ⟨[], "# 2020-01-02 09:00 ws", [], "# 2020-01-02 10:00 we"⟩]
    ["after"] (by decide) (by decide)
  exact h.trans (by rfl)

/-- C2 counterexample: when a line carries both tags while an interval is
open, the source checks `start_tag` first (time_sheet.py line 89), so the
scan aborts with the nested-start error instead of sealing the interval as
the claim states. -/
theorem C2_counterexample :
    _parse_intervals_from_journal (tableParse demoTable)
      ["# 2020-01-01 09:00 ws", "# 2020-01-01 17:00 ws we"] "ws" "we"
    = .error (.nestedStart 2 "# 2020-01-01 17:00 ws we") := by rfl

/-- C2 (amended): a timestamp line carrying both tags hits the end-tag
check first when no interval is open (unmatched-end error), but hits the
start-tag check first when an interval is open (nested-start error); in
neither state does it seal an interval. -/
theorem C2_amended_precedence (pdt : String → Option Int) (st et : String)
    (l : String) (rest : List String) (num : Nat) (acc : List Interval)
    (a : OpenInterval) (p : TSLine)
    (hp : _parse_timestamp_line pdt l = some p)
    (hst : p.tags.contains st = true) (het : p.tags.contains et = true) :
    scanAux pdt st et (l :: rest) num none acc
        = .error (.unmatchedEnd (num + 1) l)
    ∧ scanAux pdt st et (l :: rest) num (some a) acc
        = .error (.nestedStart (num + 1) l) := by
  constructor <;> (simp only [scanAux, hp, het, hst]; simp)

/-- Witness for the amended C2 at a concrete both-tag line. -/
theorem C2_amended_witness :
    scanAux (tableParse demoTable) "ws" "we"
      ["# 2020-01-01 17:00 ws we"] 0 none []
      = .error (.unmatchedEnd 1 "# 2020-01-01 17:00 ws we")
    ∧ scanAux (tableParse demoTable) "ws" "we"
      ["# 2020-01-01 17:00 ws we"] 0
      (some ⟨540, ["# 2020-01-01 09:00 ws"]⟩) []
      = .error (.nestedStart 1 "# 2020-01-01 17:00 ws we") :=
  C2_amended_precedence (tableParse demoTable) "ws" "we"
    "# 2020-01-01 17:00 ws we" [] 0 [] ⟨540, ["# 2020-01-01 09:00 ws"]⟩
    ⟨1020, ["ws", "we"]⟩ (by rfl) (by decide) (by decide)

/-- C3 counterexample: all four scanner failure kinds are raised as the
same Python exception class `ValueError`, so a caller cannot tell them
apart by the error's type. -/
theorem C3_counterexample :
    _parse_intervals_from_journal (tableParse demoTable)
      ["# 2020-01-01 17:00 we"] "ws" "we"
      = .error (.unmatchedEnd 1 "# 2020-01-01 17:00 we")
    ∧ _parse_intervals_from_journal (tableParse demoTable)
      ["# 2020-01-01 09:00 ws", "# 2020-01-01 17:00 ws"] "ws" "we"
      = .error (.nestedStart 2 "# 2020-01-01 17:00 ws")
    ∧ _parse_intervals_from_journal (tableParse demoTable)
      ["# 2020-01-01 17:00 ws", "# 2020-01-01 09:00 we"] "ws" "we"
      = .error (.negativeDuration
          ⟨1020, 540, ["# 2020-01-01 17:00 ws", "# 2020-01-01 09:00 we"]⟩)
    ∧ _parse_intervals_from_journal (tableParse demoTable)
      ["# 2020-01-01 09:00 ws"] "ws" "we" = .error .unterminated
    ∧ (ScanError.unmatchedEnd 1 "# 2020-01-01 17:00 we").pyType
      = (ScanError.nestedStart 2 "# 2020-01-01 17:00 ws").pyType
    ∧ (ScanError.nestedStart 2 "# 2020-01-01 17:00 ws").pyType
      = (ScanError.negativeDuration
          ⟨1020, 540, ["# 2020-01-01 17:00 ws", "# 2020-01-01 09:00 we"]⟩).pyType
    ∧ (ScanError.negativeDuration
        ⟨1020, 540, ["# 2020-01-01 17:00 ws", "# 2020-01-01 09:00 we"]⟩).pyType
      = ScanError.unterminated.pyType :=
  ⟨by rfl, by rfl, by rfl, by rfl, by rfl, by rfl, by rfl⟩

/-- C3 (amended): every error the scanner propagates to its caller is
raised as the single Python exception class `ValueError`; the four failure
kinds are distinguishable only by their message contents, not by type. -/
theorem C3_all_errors_valueerror (pdt : String → Option Int)
    (lines : List String) (st et : String) (e : ScanError)
    (h : _parse_intervals_from_journal pdt lines st et = .error e) :
    e.pyType = "ValueError" := by
  cases e <;> rfl

/-- Witness for the amended C3 at a concrete failing scan. -/
theorem C3_witness : ScanError.unterminated.pyType = "ValueError" :=
  C3_all_errors_valueerror (tableParse demoTable)
    ["# 2020-01-01 09:00 ws"] "ws" "we" .unterminated (by rfl)

/-- C4: every interval in a successfully returned sequence satisfies
`end >= start`; a sealed interval with `end < start` raises the
negative-duration error before being appended. -/
theorem C4_no_negative_interval (pdt : String → Option Int)
    (lines : List String) (st et : String) (ivs : List Interval)
    (hscan : _parse_intervals_from_journal pdt lines st et = .ok ivs)
    (i : Interval) (hi : i ∈ ivs) : i.start ≤ i.endTime :=
  scanAux_nonneg pdt st et lines 0 none [] ivs (by simp) hscan i hi

/-- Witness for C4 at a concrete successful scan. -/
theorem C4_witness :
    (⟨540, 1020, ["# 2020-01-01 09:00 ws", "# 2020-01-01 17:00 we"]⟩ :
      Interval).start
    ≤ (⟨540, 1020, ["# 2020-01-01 09:00 ws", "# 2020-01-01 17:00 we"]⟩ :
      Interval).endTime :=
  C4_no_negative_interval (tableParse demoTable)
    ["# 2020-01-01 09:00 ws", "# 2020-01-01 17:00 we"] "ws" "we"
    [⟨540, 1020, ["# 2020-01-01 09:00 ws", "# 2020-01-01 17:00 we"]⟩]
    (by rfl)
    ⟨540, 1020, ["# 2020-01-01 09:00 ws", "# 2020-01-01 17:00 we"]⟩
    (by simp)

/-- C5: an end-tag line (not carrying the start tag) reached with no
interval open aborts the scan with the unmatched-end error carrying that
line's 1-based number. -/
theorem C5_unmatched_end (pdt : String → Option Int) (st et : String)
    (pre : List String) (l : String) (rest : List String) (p : TSLine)
    (hpre : ∀ x ∈ pre, neitherTag pdt st et x = true)
    (hp : _parse_timestamp_line pdt l = some p)
    (het : p.tags.contains et = true) (hst : p.tags.contains st = false) :
    _parse_intervals_from_journal pdt (pre ++ l :: rest) st et
    = .error (.unmatchedEnd (pre.length + 1) l) := by
  unfold _parse_intervals_from_journal
  rw [scanAux_skip_closed pdt st et pre hpre]
  simp only [Nat.zero_add, scanAux, hp, het]
  simp

/-- Witness for C5: the end-tag line is line 2 of the journal and the
error carries line number 2. -/
theorem C5_witness :
    _parse_intervals_from_journal (tableParse demoTable)
      (["some notes"] ++ "# 2020-01-01 17:00 we" :: ["tail"]) "ws" "we"
    = .error (.unmatchedEnd 2 "# 2020-01-01 17:00 we") :=
  C5_unmatched_end (tableParse demoTable) "ws" "we"
    ["some notes"] "# 2020-01-01 17:00 we" ["tail"] ⟨1020, ["we"]⟩
    (by decide) (by rfl) (by decide) (by decide)

/-- C6: reaching end-of-input with an interval still open fails with the
unterminated error and returns no intervals at all — even when earlier
well-formed episodes had already been sealed. -/
theorem C6_unterminated (pdt : String → Option Int) (st et : String)
    (bs : List JournalBlock) (pre : List String) (sline : String)
    (mid : List String) (ps : TSLine)
    (hbs : ∀ b ∈ bs, blockWF pdt st et b = true)
    (hpre : ∀ l ∈ pre, neitherTag pdt st et l = true)
    (hps : _parse_timestamp_line pdt sline = some ps)
    (hst : ps.tags.contains st = true) (het : ps.tags.contains et = false)
    (hmid : ∀ l ∈ mid, neitherTag pdt st et l = true) :
    _parse_intervals_from_journal pdt
      ((bs.map JournalBlock.toLines).flatten ++ pre ++ sline :: mid) st et
    = .error .unterminated := by
  unfold _parse_intervals_from_journal
  rw [List.append_assoc]
  rw [scanAux_blocks pdt st et bs hbs]
  rw [scanAux_skip_closed pdt st et pre hpre]
  simp only [scanAux, hps, hst, het]
  simp only [Bool.false_eq_true, if_false, if_true]
  simp only [List.nil_append]
  have h2 := scanAux_skip_open pdt st et mid hmid []
    (0 + (List.map JournalBlock.toLines bs).flatten.length + pre.length + 1)
    ps.time [sline] (List.map (blockInterval pdt) bs)
  rw [List.append_nil] at h2
  rw [h2]
  rfl

/-- Witness for C6: one sealed episode followed by an unterminated start
still yields the unterminated error and no interval list. -/
theorem C6_witness :
    _parse_intervals_from_journal (tableParse demoTable)
      (([(⟨[], "# 2020-01-01 09:00 ws", [], "# 2020-01-01 17:00 we"⟩ :
          JournalBlock)].map JournalBlock.toLines).flatten
        ++ ["notes"] ++ "# 2020-01-02 09:00 ws" :: ["more notes"]) "ws" "we"
    = .error .unterminated :=
  C6_unterminated (tableParse demoTable) "ws" "we"
    [⟨[], "# 2020-01-01 09:00 ws", [], "# 2020-01-01 17:00 we"⟩]
    ["notes"] "# 2020-01-02 09:00 ws" ["more notes"] ⟨1980, ["ws"]⟩
    (by decide) (by decide) (by rfl) (by decide) (by decide) (by decide)

/-- C7: for a line starting with the marker whose space-split is the
marker token followed by at least two tokens, the second and third tokens
of the line are parsed together (joined by one space) as the date-time,
and the tokens from the fourth onward, each stripped, are returned as the
tag sequence in order. -/
theorem C7_token_selection (pdt : String → Option Int) (line t1 t2 : String)
    (rest : List String) (tv : Int)
    (h0 : pyStartsWith line "# " = true)
    (h1 : pySplitSpace line = "#" :: t1 :: t2 :: rest)
    (h2 : pdt (t1 ++ " " ++ t2) = some tv) :
    _parse_timestamp_line pdt line = some ⟨tv, rest.map pyStrip⟩ := by
  unfold _parse_timestamp_line
  rw [h0]
  simp only [if_true, h1, List.drop_succ_cons, List.drop_zero,
    List.take_succ_cons, List.take_zero]
  rw [pyJoinSpace_pair t1 t2, h2]

/-- Witness for C7 at a concrete timestamp line with two tags, the second
carrying a trailing newline that stripping removes. -/
theorem C7_witness :
    _parse_timestamp_line (tableParse demoTable)
      "# 2020-01-01 09:00 tagA tagB\n" = some ⟨540, ["tagA", "tagB"]⟩ :=
  C7_token_selection (tableParse demoTable) "# 2020-01-01 09:00 tagA tagB\n"
    "2020-01-01" "09:00" ["tagA", "tagB\n"] 540 (by rfl) (by rfl) (by rfl)

/-- C8: a journal in which no line parses as a timestamp line scans to the
empty interval sequence with no error. -/
theorem C8_no_timestamp_lines (pdt : String → Option Int) (st et : String)
    (lines : List String)
    (h : ∀ l ∈ lines, _parse_timestamp_line pdt l = none) :
    _parse_intervals_from_journal pdt lines st et = .ok [] := by
  unfold _parse_intervals_from_journal
  exact scanAux_inert_run pdt st et lines
    (fun l hl => by unfold neitherTag; rw [h l hl]) 0 []

/-- Witness for C8 on concrete non-timestamp lines (including a line with
the marker but an unparseable date). -/
theorem C8_witness :
    _parse_intervals_from_journal (tableParse demoTable)
      ["hello", "world", "#nomarker", "# not a date"] "ws" "we" = .ok [] :=
  C8_no_timestamp_lines (tableParse demoTable) "ws" "we"
    ["hello", "world", "#nomarker", "# not a date"] (by decide)

/-- C9: when the scan succeeds but the (possibly filtered) interval list
is empty, the report phase of `main` hits `intervals[0]` on an empty list
and fails with `IndexError` instead of printing a zero-hour report. -/
theorem C9_empty_report_indexerror (pdt : String → Option Int)
    (journal : List String) (st et : String) (sd ed : Option Int)
    (ivs : List Interval)
    (hscan : _parse_intervals_from_journal pdt journal st et = .ok ivs)
    (hfilter : filterIntervals sd ed ivs = []) :
    mainReport pdt journal st et sd ed = .error .indexError := by
  unfold mainReport
  rw [hscan]
  simp only [hfilter]
  rfl

/-- Witness for C9: a journal with no timestamp lines scans to zero
intervals and the report phase fails with the index error. -/
theorem C9_witness :
    mainReport (tableParse demoTable) ["no timestamps here"] "ws" "we"
      none none = .error .indexError :=
  C9_empty_report_indexerror (tableParse demoTable) ["no timestamps here"]
    "ws" "we" none none [] (by rfl) (by rfl)

/-- C10: a line whose space-split is just the marker token and one more
token is still a timestamp line whenever that single token parses as a
date-time, and its tag sequence is empty. -/
theorem C10_single_token (pdt : String → Option Int) (line t1 : String)
    (tv : Int)
    (h0 : pyStartsWith line "# " = true)
    (h1 : pySplitSpace line = ["#", t1])
    (h2 : pdt t1 = some tv) :
    _parse_timestamp_line pdt line = some ⟨tv, []⟩ := by
  unfold _parse_timestamp_line
  rw [h0]
  simp only [if_true, h1, List.drop_succ_cons, List.drop_zero,
    List.take_succ_cons, List.take_zero, List.take_nil, List.drop_nil]
  rw [pyJoinSpace_single t1, h2]
  rfl

/-- Witness for C10 at the concrete line `# 2020-01-01`. -/
theorem C10_witness :
    _parse_timestamp_line (tableParse demoTable) "# 2020-01-01"
    = some ⟨0, []⟩ :=
  C10_single_token (tableParse demoTable) "# 2020-01-01" "2020-01-01" 0
    (by rfl) (by rfl) (by rfl)

end TimeSheet
